import Mathlib

/-!
Verification of the dcos-terraform statuspage service (main.go).

The file shallowly embeds the logic of main.go: the CI badge
classification, the per-branch build-status prober, the repository
fetcher with its provider buckets, the markdown renderer, and the two
HTTP handlers.  External collaborators are parameters: the CI service is
a function from a request URL to an HTTP response, the markdown-to-HTML
library is a function from renderer options and markdown text to HTML,
and the GitHub listing is a list of pages, each either a repository list
or a transport/deserialization error.  The nondeterministic completion
order of the concurrent per-branch goroutines is an explicit permutation
parameter: the goroutines append their results to the shared slice in
completion order, so the slice returned by the prober is the list of
per-branch results in that order.
-/

set_option maxRecDepth 16384

namespace Statuspage

/-- An HTTP response as observed by a probe: status code and plain-text
body. -/
structure HttpResponse where
  statusCode : Nat
  body : String
  deriving DecidableEq, Repr

/-- `Badge` from main.go: a numeric result code and an image path. -/
structure Badge where
  Result : Nat
  Image : String
  deriving DecidableEq, Repr

/-- `CiResult` from main.go: branch index, the doubly query-escaped
branch name, and the badge. -/
structure CiResult where
  BranchesIndex : Nat
  BranchHtmlDoubleEncoded : String
  Build : Badge
  deriving DecidableEq, Repr

/-- The fields of a GitHub repository that main.go consumes: its name
and archived flag. -/
structure Repo where
  name : String
  archived : Bool
  deriving DecidableEq, Repr

/-- An HTTP reply written by a handler: status, headers, body. -/
structure HttpReply where
  status : Nat
  headers : List (String × String)
  body : String
  deriving DecidableEq, Repr

/-- `STATIC_DIR` constant from main.go. -/
def STATIC_DIR : String := "/static/"

/-- `STATIC_CSS_FILE` constant from main.go. -/
def STATIC_CSS_FILE : String := "bootstrap.min.css"

/-- The hardcoded provider list from `main()`. -/
def provider : List String := ["aws", "azurerm", "gcp", "null", "template"]

/-- The hardcoded branch list from `main()`. -/
def branches : List String := ["support/0.2.x", "support/0.1.x"]

/-- UTF-8 encoding of one code point as a list of byte values.  Go
strings are UTF-8 byte sequences and net/url escapes individual
bytes. -/
def utf8Bytes (n : Nat) : List Nat :=
  if n < 128 then [n]
  else if n < 2048 then [192 + n / 64, 128 + n % 64]
  else if n < 65536 then [224 + n / 4096, 128 + (n / 64) % 64, 128 + n % 64]
  else [240 + n / 262144, 128 + (n / 4096) % 64, 128 + (n / 64) % 64, 128 + n % 64]

/-- The UTF-8 bytes of a string. -/
def stringBytes (s : String) : List Nat :=
  (s.toList.map (fun c => utf8Bytes c.toNat)).flatten

/-- net/url `shouldEscape` in query-component mode returns false exactly
for alphanumerics and the marks `-`, `_`, `.`, `~`. -/
def isUnreservedByte (n : Nat) : Bool :=
  (97 ≤ n && n ≤ 122) || (65 ≤ n && n ≤ 90) || (48 ≤ n && n ≤ 57) ||
    n == 45 || n == 95 || n == 46 || n == 126

/-- Upper-case hexadecimal digit for a value below 16, as used by
net/url. -/
def upperHexDigit (n : Nat) : Char :=
  if n < 10 then Char.ofNat (48 + n) else Char.ofNat (55 + n)

/-- net/url escaping of one byte in query-component mode: unreserved
bytes are kept, space becomes `+`, everything else becomes a percent
escape with two upper-case hex digits. -/
def escapeByte (n : Nat) : List Char :=
  if isUnreservedByte n then [Char.ofNat n]
  else if n == 32 then ['+']
  else ['%', upperHexDigit (n / 16), upperHexDigit (n % 16)]

/-- Go `url.QueryEscape`. -/
def queryEscape (s : String) : String :=
  (((stringBytes s).map escapeByte).flatten).asString

/-- The `switch true` statement classifying the response body in
`getJenkinsBuildStatusBadge`.  Every case, the default included,
assigns both fields of the badge. -/
def applySwitch (b : Badge) (body : String) : Badge :=
  if body = "Success" then
    { b with Image := STATIC_DIR ++ "images/1-build-passing.svg", Result := 1 }
  else if body = "In progress" then
    { b with Image := STATIC_DIR ++ "images/2-build-running.svg", Result := 2 }
  else if body = "Failed" then
    { b with Image := STATIC_DIR ++ "images/3-build-failing.svg", Result := 3 }
  else if body = "Aborted" then
    { b with Image := STATIC_DIR ++ "images/4-build-aborted.svg", Result := 4 }
  else
    { b with Image := STATIC_DIR ++ "images/0-build-notrun.svg", Result := 0 }

/-- The badge computation of one probe goroutine after the HTTP GET:
`badge := new(Badge)` (zero value), then the `if res.StatusCode !=
http.StatusOK` assignment, then the switch on the body. -/
def classify (res : HttpResponse) : Badge :=
  let badge : Badge := { Result := 0, Image := "" }
  let badge :=
    if res.statusCode ≠ 200 then
      { badge with Image := STATIC_DIR ++ "images/0-build-notrun.svg", Result := 0 }
    else badge
  applySwitch badge res.body

/-- The fixed part of the Jenkins build-status URL, up to the
doubly-escaped branch segment. -/
def probeUrlPre (repoName : String) : String :=
  "https://jenkins-terraform.mesosphere.com/service/dcos-terraform-jenkins/buildStatus/text?job=dcos-terraform%2F"
    ++ repoName ++ "%2F"

/-- Body of one probe goroutine for branch `b` at index `i`: double
query-escape the branch, GET the status URL, classify the response. -/
def probeBranch (ci : String → HttpResponse) (repoName : String) (i : Nat) (b : String) :
    CiResult :=
  let branchHtmlDoubleEncoded := queryEscape (queryEscape b)
  let res := ci (probeUrlPre repoName ++ branchHtmlDoubleEncoded)
  { BranchesIndex := i
    BranchHtmlDoubleEncoded := branchHtmlDoubleEncoded
    Build := classify res }

/-- The probe goroutine launched for branch index `i` (none when the
index is out of range of the branch list). -/
def probeOne (ci : String → HttpResponse) (repoName : String) (i : Nat) : Option CiResult :=
  (branches[i]?).map (probeBranch ci repoName i)

/-- `getJenkinsBuildStatusBadge`: the goroutines append their results to
the shared slice in completion order, and the function returns once all
of them have reported.  `completionOrder` is the order in which the
per-branch goroutines finish. -/
def getJenkinsBuildStatusBadge (ci : String → HttpResponse) (repoName : String)
    (completionOrder : List Nat) : List CiResult :=
  completionOrder.filterMap (probeOne ci repoName)

/-- The per-branch results in canonical branch-list order. -/
def canonicalResults (ci : String → HttpResponse) (repoName : String) : List CiResult :=
  (List.range branches.length).filterMap (probeOne ci repoName)

/-- Stable insertion of one result into a list sorted by branch
index. -/
def insertByIndex (r : CiResult) : List CiResult → List CiResult
  | [] => [r]
  | x :: xs =>
    if r.BranchesIndex ≤ x.BranchesIndex then r :: x :: xs else x :: insertByIndex r xs

/-- The `sort.SliceStable` call in `markdownContent`, ordering badges by
`BranchesIndex`. -/
def sortByIndex : List CiResult → List CiResult
  | [] => []
  | x :: xs => insertByIndex x (sortByIndex xs)

/-- Bool test of whether one character list starts with another. -/
def listStartsWith : List Char → List Char → Bool
  | _, [] => true
  | [], _ :: _ => false
  | c :: cs, p :: ps => c == p && listStartsWith cs ps

/-- Go `regexp.MatchString` for the pattern
`^(pfx)(key).*$` built in `fetchRepositorys`, for literal `pfx` and
`key` (the configured values contain no metacharacters): the name must
start with `pfx ++ key` and the remainder may contain anything except a
newline, since `.` excludes newline and `$` anchors at end of text. -/
def matchString (pfx key name : String) : Bool :=
  let pat := (pfx ++ key).toList
  let s := name.toList
  listStartsWith s pat && !((s.drop pat.length).contains '\x0a')

/-- The inner loop of `fetchRepositorys` for one provider key: starting
from `repos[i] = nil`, append every repository that is not archived and
whose name matches the pattern, in API order. -/
def bucketFor (pfx key : String) (allRepos : List Repo) : List Repo :=
  allRepos.foldl
    (fun acc repo =>
      if repo.archived ≠ true then
        (if matchString pfx key repo.name then acc ++ [repo] else acc)
      else acc)
    []

/-- The pagination loop of `fetchRepositorys`: pages are consumed in
order, each one either a repository list or an error that
`CheckErrorFatal` turns into process termination; the first error aborts
the accumulation. -/
def collectAllRepos : List (Except String (List Repo)) → Except String (List Repo)
  | [] => Except.ok []
  | Except.error e :: _ => Except.error e
  | Except.ok rs :: rest =>
    match collectAllRepos rest with
    | Except.error e => Except.error e
    | Except.ok tail => Except.ok (rs ++ tail)

/-- `fetchRepositorys` as a transition on the global bucket map: all
pages are accumulated first; on any page error the process dies
(modelled by returning the error) with the map untouched, since the
bucket assignments only happen after the pagination loop; on success
every provider key is rebuilt from scratch. -/
def fetchRepositorys (pfx : String) (pages : List (Except String (List Repo)))
    (old : String → List Repo) : (String → List Repo) × Option String :=
  match collectAllRepos pages with
  | Except.error e => (old, some e)
  | Except.ok allRepos =>
    (fun p => if p ∈ provider then bucketFor pfx p allRepos else old p, none)

/-- The `topic` byte string of `markdownContent`. -/
def topicStr : String := "# DC/OS Terraform modules\n"

/-- The `separator` byte string of `markdownContent`. -/
def separatorStr : String := "---\n"

/-- The hardcoded table header of `markdownContent`. -/
def tablehead : String := "| Repository | support/0.2.x | support/0.1.x |\n"

/-- The table alignment row of `markdownContent`. -/
def tablesplit : String := "| --- | --- | --- |\n"

/-- `status_badge_icon_prefix` from `markdownContent`. -/
def statusBadgeIconPre : String := "[![Build Status]("

/-- `status_badge_link_prefix` from `markdownContent`. -/
def statusBadgeLinkPre : String :=
  "(https://jenkins-terraform.mesosphere.com/service/dcos-terraform-jenkins/job/dcos-terraform/job/"

/-- The badge-cell loop of `markdownContent`: every badge contributes
its image and its link built from the stored doubly-escaped branch; all
but the last are followed by a cell separator and the next icon
opener. -/
def cellsStr (repoName : String) : List CiResult → String
  | [] => ""
  | [b] =>
    b.Build.Image ++ ")]" ++ statusBadgeLinkPre ++ repoName ++ "/job/"
      ++ b.BranchHtmlDoubleEncoded ++ "/) "
  | b :: rest =>
    b.Build.Image ++ ")]" ++ statusBadgeLinkPre ++ repoName ++ "/job/"
      ++ b.BranchHtmlDoubleEncoded ++ "/) | " ++ statusBadgeIconPre
      ++ cellsStr repoName rest

/-- One repository row of `markdownContent`: probe the repository, sort
the collected badges stably by branch index, then emit the row. -/
def rowFor (ci : String → HttpResponse) (ord : String → List Nat) (repoName : String) :
    String :=
  let badges := sortByIndex (getJenkinsBuildStatusBadge ci repoName (ord repoName))
  "| " ++ repoName ++ " | " ++ statusBadgeIconPre ++ cellsStr repoName badges ++ "|\n"

/-- `markdownContent` as a function of the CI service, the per-call
completion orders and the current bucket map: the imperative
byte-slice appends become left folds over the provider list and each
bucket. -/
def markdownContent (ci : String → HttpResponse) (ord : String → List Nat)
    (buckets : String → List Repo) : String :=
  provider.foldl
    (fun md p =>
      (buckets p).foldl (fun acc repo => acc ++ rowFor ci ord repo.name)
        (md ++ separatorStr ++ "### Provider: **" ++ p ++ "**\n" ++ tablehead ++ tablesplit))
    topicStr

/-- One repository row in specification shape: the cells are those of
the canonical branch-order result list. -/
def dataRow (ci : String → HttpResponse) (repoName : String) : String :=
  "| " ++ repoName ++ " | " ++ statusBadgeIconPre
    ++ cellsStr repoName (canonicalResults ci repoName) ++ "|\n"

/-- One provider section in specification shape: separator, section
header, table header, alignment row, then one data row per repository
of the bucket, in bucket order. -/
def sectionFor (ci : String → HttpResponse) (p : String) (bucket : List Repo) : String :=
  separatorStr ++ "### Provider: **" ++ p ++ "**\n" ++ tablehead ++ tablesplit
    ++ String.join (bucket.map (fun repo => dataRow ci repo.name))

/-- The whole markdown document in specification shape: the topic line
followed by one section per provider in configured order. -/
def markdownSpec (ci : String → HttpResponse) (buckets : String → List Repo) : String :=
  topicStr ++ String.join (provider.map (fun p => sectionFor ci p (buckets p)))

/-- The renderer options fields set in `renderMarkdownHtml`. -/
structure RendererOptions where
  Title : String
  CSS : String
  Icon : String
  Head : String
  Generator : String
  deriving DecidableEq, Repr

/-- `GENERATOR` constant from main.go. -/
def GENERATOR : String := "  <meta name=\"GENERATOR\" content=\"dcos-terraform-statuspage"

/-- `HEAD_EXTRA` constant from main.go. -/
def HEAD_EXTRA : String :=
  "  <link rel=\"apple-touch-icon\" sizes=\"180x180\" href=\"/apple-touch-icon.png\">\n  <link rel=\"icon\" type=\"image/png\" sizes=\"32x32\" href=\"/favicon-32x32.png\">\n  <link rel=\"icon\" type=\"image/png\" sizes=\"16x16\" href=\"/favicon-16x16.png\">\n  <link rel=\"manifest\" href=\"/site.webmanifest\">\n  <link rel=\"mask-icon\" href=\"/safari-pinned-tab.svg\" color=\"#5bbad5\">\n  <meta name=\"msapplication-TileColor\" content=\"#da532c\">\n  <meta name=\"theme-color\" content=\"#ffffff\">"

/-- The fixed options passed to the markdown HTML renderer. -/
def rendererOpts : RendererOptions :=
  { Title := "DC/OS Terraform modules"
    CSS := STATIC_DIR ++ "css/" ++ STATIC_CSS_FILE
    Icon := "/favicon.ico"
    Head := HEAD_EXTRA
    Generator := GENERATOR }

/-- `renderMarkdownHtml`: applies the external markdown-to-HTML library
(a pure function, passed as a parameter) to the current markdown cache
with the fixed renderer options. -/
def renderMarkdownHtml (toHTML : RendererOptions → String → String)
    (markdownCache : String) : String :=
  toHTML rendererOpts markdownCache

/-- The HTML page generated from the last successfully published
markdown cache; since the conversion is pure, this is the document the
specification calls the Rendered Page Cache. -/
def renderedPage (toHTML : RendererOptions → String → String)
    (markdownCache : String) : String :=
  renderMarkdownHtml toHTML markdownCache

/-- `handler` for `GET /`: sets the Cache-Control header and writes the
rendered HTML. -/
def handler (toHTML : RendererOptions → String → String) (markdownCache : String) :
    HttpReply :=
  { status := 200
    headers := [("Cache-Control", "max-age=600")]
    body := renderMarkdownHtml toHTML markdownCache }

/-- `livenessHandler` for `GET /health`: writes status 200 and the body
ok, reading neither the bucket map nor the markdown cache. -/
def livenessHandler (_buckets : String → List Repo) (_markdownCache : String) : HttpReply :=
  { status := 200, headers := [], body := "ok" }

/-- A CI service answering 200 Success to every request. -/
def constCi : String → HttpResponse := fun _ => { statusCode := 200, body := "Success" }

/-- Scenario repository terraform-aws-cluster, not archived. -/
def awsClusterRepo : Repo := { name := "terraform-aws-cluster", archived := false }

/-- Scenario repository terraform-gcp-base, not archived. -/
def gcpBaseRepo : Repo := { name := "terraform-gcp-base", archived := false }

/-- Scenario repository terraform-aws-old, archived. -/
def awsOldRepo : Repo := { name := "terraform-aws-old", archived := true }

/-- The three scenario repositories in API order. -/
def scRepos : List Repo := [awsClusterRepo, gcpBaseRepo, awsOldRepo]

/-- A CI service answering Success for the support/0.2.x probe of
terraform-aws-cluster and Failed for everything else. -/
def scCi : String → HttpResponse := fun url =>
  if url = probeUrlPre "terraform-aws-cluster" ++ "support%252F0.2.x" then
    { statusCode := 200, body := "Success" }
  else { statusCode := 200, body := "Failed" }

/-- A completion order in which the branch at index 1 finishes first. -/
def scOrd : String → List Nat := fun _ => [1, 0]

/-- The in-launch-order completion order. -/
def idOrd : String → List Nat := fun _ => [0, 1]

/-- A bucket map holding only terraform-aws-cluster under the aws
key. -/
def scBuckets : String → List Repo := fun p =>
  if p = "aws" then [awsClusterRepo] else []

/-- The build-state word carried by the badge image of each result
code. -/
def buildStateName : Nat → String
  | 0 => "notrun"
  | 1 => "passing"
  | 2 => "running"
  | 3 => "failing"
  | 4 => "aborted"
  | _ => ""

/-- The static SVG path whose numeric name matches a result code. -/
def imageFor (n : Nat) : String :=
  STATIC_DIR ++ "images/" ++ toString n ++ "-build-" ++ buildStateName n ++ ".svg"

lemma perm_pair {l : List Nat} (h : l.Perm [0, 1]) : l = [0, 1] ∨ l = [1, 0] := by
  have hlen : l.length = 2 := by simpa using h.length_eq
  match l, hlen with
  | [a, b], _ =>
    have ha : a ∈ [0, 1] := h.subset (by simp)
    have hb : b ∈ [0, 1] := h.subset (by simp)
    simp only [List.mem_cons, List.mem_singleton, List.not_mem_nil, or_false] at ha hb
    rcases ha with ha | ha <;> rcases hb with hb | hb <;> subst ha <;> subst hb
    · exfalso
      have h1 : (1 : Nat) ∈ [0, 0] := h.symm.subset (by simp)
      simp at h1
    · exact Or.inl rfl
    · exact Or.inr rfl
    · exfalso
      have h0 : (0 : Nat) ∈ [1, 1] := h.symm.subset (by simp)
      simp at h0

lemma sorted_getJenkins (ci : String → HttpResponse) (repoName : String) (l : List Nat)
    (h : l.Perm (List.range branches.length)) :
    sortByIndex (getJenkinsBuildStatusBadge ci repoName l) = canonicalResults ci repoName := by
  have hr : List.range branches.length = [0, 1] := rfl
  rw [hr] at h
  rcases perm_pair h with h2 | h2 <;> subst h2 <;> rfl

lemma row_canonical (ci : String → HttpResponse) (ord : String → List Nat) (repoName : String)
    (h : (ord repoName).Perm (List.range branches.length)) :
    rowFor ci ord repoName = dataRow ci repoName := by
  unfold rowFor dataRow
  rw [sorted_getJenkins ci repoName (ord repoName) h]

lemma strJoin_foldl : ∀ (l : List String) (s : String),
    List.foldl (fun r x => r ++ x) s l = s ++ String.join l
  | [], s => by simp [String.join]
  | x :: t, s => by
    rw [List.foldl_cons, strJoin_foldl t (s ++ x)]
    have hj : String.join (x :: t) = x ++ String.join t := by
      show List.foldl (fun r y => r ++ y) ("" ++ x) t = x ++ String.join t
      rw [strJoin_foldl t ("" ++ x)]
      simp [String.append_assoc]
    rw [hj, String.append_assoc]

lemma strJoin_cons (x : String) (t : List String) :
    String.join (x :: t) = x ++ String.join t := by
  show List.foldl (fun r y => r ++ y) ("" ++ x) t = x ++ String.join t
  rw [strJoin_foldl t ("" ++ x)]
  simp [String.append_assoc]

lemma foldl_append_join {α : Type} (f : α → String) :
    ∀ (l : List α) (s : String),
      l.foldl (fun acc x => acc ++ f x) s = s ++ String.join (l.map f)
  | [], s => by simp [String.join]
  | x :: t, s => by
    rw [List.foldl_cons, foldl_append_join f t (s ++ f x), List.map_cons, strJoin_cons,
      ← String.append_assoc]

lemma collect_ok_then_error (e : String) (rest : List (Except String (List Repo))) :
    ∀ (pgs : List (Except String (List Repo))),
      (∀ x ∈ pgs, ∃ rs, x = Except.ok rs) →
      collectAllRepos (pgs ++ Except.error e :: rest) = Except.error e
  | [], _ => rfl
  | x :: t, hok => by
    obtain ⟨rs, hx⟩ := hok x (List.mem_cons_self x t)
    subst hx
    have ht : ∀ y ∈ t, ∃ rs, y = Except.ok rs := fun y hy => hok y (List.mem_cons_of_mem _ hy)
    rw [List.cons_append]
    show (match collectAllRepos (t ++ Except.error e :: rest) with
      | Except.error e => Except.error e
      | Except.ok tail => Except.ok (rs ++ tail)) = Except.error e
    rw [collect_ok_then_error e rest t ht]

lemma bucketFor_eq_filter (pfx key : String) (allRepos : List Repo) :
    bucketFor pfx key allRepos =
      allRepos.filter (fun repo => !repo.archived && matchString pfx key repo.name) := by
  suffices h : ∀ (l : List Repo) (acc : List Repo),
      l.foldl
          (fun acc repo =>
            if repo.archived = false then
              (if matchString pfx key repo.name then acc ++ [repo] else acc)
            else acc)
          acc
        = acc ++ l.filter (fun repo => !repo.archived && matchString pfx key repo.name) by
    simpa [bucketFor] using h allRepos []
  intro l
  induction l with
  | nil => intro acc; simp
  | cons r t ih =>
    intro acc
    cases hr : r.archived <;> cases hm : matchString pfx key r.name <;>
      simp [List.filter_cons, hr, hm, ih, List.append_assoc]

lemma markdown_eq (ci : String → HttpResponse) (ord : String → List Nat)
    (buckets : String → List Repo)
    (h : ∀ repoName, (ord repoName).Perm (List.range branches.length)) :
    markdownContent ci ord buckets = markdownSpec ci buckets := by
  unfold markdownContent markdownSpec
  have hstep : ∀ (p : String) (md : String),
      (buckets p).foldl (fun acc repo => acc ++ rowFor ci ord repo.name)
          (md ++ separatorStr ++ "### Provider: **" ++ p ++ "**\n" ++ tablehead ++ tablesplit)
        = md ++ sectionFor ci p (buckets p) := by
    intro p md
    rw [foldl_append_join (fun repo => rowFor ci ord repo.name) (buckets p)]
    have hmap : (buckets p).map (fun repo => rowFor ci ord repo.name)
        = (buckets p).map (fun repo => dataRow ci repo.name) :=
      List.map_congr_left (fun repo _ => row_canonical ci ord repo.name (h repo.name))
    rw [hmap]
    unfold sectionFor
    simp [String.append_assoc]
  have h2 : provider.foldl
      (fun md p =>
        (buckets p).foldl (fun acc repo => acc ++ rowFor ci ord repo.name)
          (md ++ separatorStr ++ "### Provider: **" ++ p ++ "**\n" ++ tablehead ++ tablesplit))
      topicStr
      = provider.foldl (fun md p => md ++ sectionFor ci p (buckets p)) topicStr := by
    apply List.foldl_ext
    intro md p _
    exact hstep p md
  rw [h2, foldl_append_join (fun p => sectionFor ci p (buckets p)) provider topicStr]

/-- Claim C1 (evaluation of the code at the failing input): a response
with HTTP status 404 and body Success is classified as passing
(result 1), not as not-run, because the switch on the body overrides the
earlier not-run assignment made for non-200 statuses. -/
theorem classify_nonok_success_passing :
    classify { statusCode := 404, body := "Success" }
        = { Result := 1, Image := "/static/images/1-build-passing.svg" } ∧
      (classify { statusCode := 404, body := "Success" }).Result ≠ 0 := by
  decide

/-- Claim C2, counterexample: with completion order [1, 0] the list
returned by the prober carries branch index 1 first, so its order is not
the branch-list order even though [1, 0] is a permutation of the branch
indices. -/
theorem prober_order_counterexample :
    (([1, 0] : List Nat).Perm (List.range branches.length)) ∧
      ¬((getJenkinsBuildStatusBadge constCi "terraform-aws-cluster" [1, 0]).map
          (fun r => r.BranchesIndex) = List.range branches.length) := by
  decide

/-- Claim C2 as amended: for every completion order that is a
permutation of the branch indices, the prober blocks until all branch
goroutines have reported and returns a list with exactly one result per
configured branch (the length equals the branch-list length and the
carried indices are a permutation of the branch indices); the list is in
completion order, and the branch-list order is restored by the caller
sorting stably by branch index, which yields the canonical
branch-ordered results. -/
theorem prober_one_result_per_branch (ci : String → HttpResponse) (repoName : String)
    (completionOrder : List Nat)
    (h : completionOrder.Perm (List.range branches.length)) :
    (getJenkinsBuildStatusBadge ci repoName completionOrder).length = branches.length ∧
      ((getJenkinsBuildStatusBadge ci repoName completionOrder).map
          (fun r => r.BranchesIndex)).Perm (List.range branches.length) ∧
      sortByIndex (getJenkinsBuildStatusBadge ci repoName completionOrder)
        = canonicalResults ci repoName := by
  have hr : List.range branches.length = [0, 1] := rfl
  rw [hr] at h
  rcases perm_pair h with h2 | h2 <;> subst h2
  · exact ⟨rfl, (by decide : ([0, 1] : List Nat).Perm (List.range branches.length)), rfl⟩
  · exact ⟨rfl, (by decide : ([1, 0] : List Nat).Perm (List.range branches.length)), rfl⟩

/-- Witness for claim C2 as amended, at a concrete reversed completion
order. -/
theorem prober_one_result_per_branch_witness :
    (([1, 0] : List Nat).Perm (List.range branches.length)) ∧
      (getJenkinsBuildStatusBadge constCi "terraform-aws-cluster" [1, 0]).length
        = branches.length :=
  ⟨by decide,
    (prober_one_result_per_branch constCi "terraform-aws-cluster" [1, 0] (by decide)).1⟩

/-- Claim C3: for every completion order of the branch probes that is a
permutation of the branch indices, the repository row written into the
markdown equals the canonical row whose cell i is built from the probe
of the i-th configured branch; the canonical result list indeed
enumerates the branch indices in configured order. -/
theorem row_cells_branch_order (ci : String → HttpResponse) (ord : String → List Nat)
    (repoName : String) (h : (ord repoName).Perm (List.range branches.length)) :
    rowFor ci ord repoName = dataRow ci repoName ∧
      (canonicalResults ci repoName).map (fun r => r.BranchesIndex)
        = List.range branches.length :=
  ⟨row_canonical ci ord repoName h, rfl⟩

/-- Witness for claim C3: the scenario CI answers Success for the
support/0.2.x probe and Failed for the support/0.1.x probe; with the
reversed completion order the row still shows passing for support/0.2.x
and failing for support/0.1.x, by position. -/
theorem row_cells_branch_order_witness :
    ((scOrd "terraform-aws-cluster").Perm (List.range branches.length)) ∧
      rowFor scCi scOrd "terraform-aws-cluster" = dataRow scCi "terraform-aws-cluster" ∧
      (canonicalResults scCi "terraform-aws-cluster").map (fun r => r.Build.Result)
        = [1, 3] :=
  ⟨by decide,
    (row_cells_branch_order scCi scOrd "terraform-aws-cluster" (by decide)).1,
    by decide⟩

/-- Claim C4: every provider bucket built by the fetcher is exactly the
list of non-archived repositories whose name matches the provider
pattern, in API order; and every non-archived repository matching a
provider pattern is a member of that provider bucket, so a name matching
several patterns lands in every matching bucket. -/
theorem fetch_buckets_characterization :
    (∀ (pfx key : String) (allRepos : List Repo),
        bucketFor pfx key allRepos
          = allRepos.filter (fun repo => !repo.archived && matchString pfx key repo.name)) ∧
      ∀ (pfx key : String) (allRepos : List Repo) (repo : Repo),
        repo ∈ allRepos → repo.archived = false → matchString pfx key repo.name = true →
        repo ∈ bucketFor pfx key allRepos := by
  constructor
  · intro pfx key allRepos
    exact bucketFor_eq_filter pfx key allRepos
  · intro pfx key allRepos repo hmem harch hmatch
    rw [bucketFor_eq_filter]
    refine List.mem_filter.2 ⟨hmem, ?_⟩
    simp [harch, hmatch]

/-- Witness for claim C4 on the spec scenario: aws gets exactly
terraform-aws-cluster, gcp gets exactly terraform-gcp-base, the archived
terraform-aws-old is excluded, and membership follows from the
characterization. -/
theorem fetch_buckets_characterization_witness :
    bucketFor "terraform-" "aws" scRepos = [awsClusterRepo] ∧
      bucketFor "terraform-" "gcp" scRepos = [gcpBaseRepo] ∧
      awsClusterRepo ∈ bucketFor "terraform-" "aws" scRepos :=
  ⟨by decide, by decide,
    fetch_buckets_characterization.2 "terraform-" "aws" scRepos awsClusterRepo
      (by decide) rfl (by decide)⟩

/-- Claim C5: the root handler replies with status 200, a Cache-Control
header of max-age=600, and a body that is verbatim the HTML page
generated from the current markdown cache by the pure conversion
function, which is the last successfully generated HTML document. -/
theorem handler_serves_rendered_page (toHTML : RendererOptions → String → String)
    (markdownCache : String) :
    (handler toHTML markdownCache).status = 200 ∧
      (handler toHTML markdownCache).headers = [("Cache-Control", "max-age=600")] ∧
      (handler toHTML markdownCache).body = renderedPage toHTML markdownCache :=
  ⟨rfl, rfl, rfl⟩

/-- Claim C6: the rendered markdown is the topic line followed by, for
every provider key in configured order, a section of separator, header,
table head and alignment row, then exactly one data row per repository
of that provider bucket in bucket order (an empty bucket contributes no
rows); the hardcoded table head lists one column per configured branch
in configured order, and every repository contributes one result per
configured branch. -/
theorem markdown_sections_rows_columns (ci : String → HttpResponse) (ord : String → List Nat)
    (buckets : String → List Repo)
    (h : ∀ repoName, (ord repoName).Perm (List.range branches.length)) :
    markdownContent ci ord buckets = markdownSpec ci buckets ∧
      tablehead = "| Repository | " ++ String.intercalate " | " branches ++ " |\n" ∧
      ∀ repoName, (canonicalResults ci repoName).length = branches.length :=
  ⟨markdown_eq ci ord buckets h, by decide, fun _ => rfl⟩

/-- Witness for claim C6 on a bucket map with one aws repository and
empty buckets for every other provider. -/
theorem markdown_sections_rows_columns_witness :
    markdownContent constCi idOrd scBuckets = markdownSpec constCi scBuckets :=
  (markdown_sections_rows_columns constCi idOrd scBuckets
    (fun _ => (by decide : ([0, 1] : List Nat).Perm (List.range branches.length)))).1

/-- Claim C7: when any page of the repository listing fails after a run
of successful pages, the fetcher dies fatally with that first error,
without consulting the remaining pages (no inline retry), and the
provider bucket map is exactly the map from before the run. -/
theorem fetch_error_no_partial_state (pfx : String) (old : String → List Repo)
    (pgs rest : List (Except String (List Repo))) (e : String)
    (hok : ∀ x ∈ pgs, ∃ rs, x = Except.ok rs) :
    fetchRepositorys pfx (pgs ++ Except.error e :: rest) old = (old, some e) := by
  unfold fetchRepositorys
  rw [collect_ok_then_error e rest pgs hok]

/-- Witness for claim C7: a successful first page, a failing second
page, and an unread third page leave the empty bucket map unchanged and
surface the error. -/
theorem fetch_error_no_partial_state_witness :
    fetchRepositorys "terraform-"
        [Except.ok [awsClusterRepo], Except.error "connection reset", Except.ok [gcpBaseRepo]]
        (fun _ => []) = (fun _ => ([] : List Repo), some "connection reset") :=
  fetch_error_no_partial_state "terraform-" (fun _ => [])
    [Except.ok [awsClusterRepo]] [Except.ok [gcpBaseRepo]] "connection reset"
    (by
      intro x hx
      rw [List.mem_singleton] at hx
      exact ⟨[awsClusterRepo], hx⟩)

/-- Claim C8: for every branch index, the probe stores as the branch
segment the query-escaping function applied exactly twice to the branch
name, the URL it contacts ends in that same doubly-escaped string, and
the badge link rendered from the stored field therefore uses the same
string. -/
theorem probe_and_link_use_double_escape (ci : String → HttpResponse) (repoName : String)
    (i : Nat) (h : i < branches.length) :
    probeOne ci repoName i = some
      { BranchesIndex := i
        BranchHtmlDoubleEncoded := queryEscape (queryEscape branches[i])
        Build := classify
          (ci (probeUrlPre repoName ++ queryEscape (queryEscape branches[i]))) } := by
  unfold probeOne
  rw [List.getElem?_eq_getElem h]
  rfl

/-- Witness for claim C8 at branch index 0: the stored segment is the
concrete double escape of support/0.2.x. -/
theorem probe_and_link_use_double_escape_witness :
    0 < branches.length ∧
      probeOne constCi "terraform-aws-cluster" 0 = some
        { BranchesIndex := 0
          BranchHtmlDoubleEncoded := "support%252F0.2.x"
          Build := { Result := 1, Image := "/static/images/1-build-passing.svg" } } := by
  refine ⟨by decide, ?_⟩
  rw [probe_and_link_use_double_escape constCi "terraform-aws-cluster" 0 (by decide)]
  decide

/-- Claim C9: the liveness handler replies 200 with body ok, and its
reply does not depend on the bucket map or the markdown cache. -/
theorem liveness_always_ok (buckets : String → List Repo) (markdownCache : String) :
    (livenessHandler buckets markdownCache).status = 200 ∧
      (livenessHandler buckets markdownCache).body = "ok" ∧
      ∀ (otherBuckets : String → List Repo) (otherCache : String),
        livenessHandler buckets markdownCache = livenessHandler otherBuckets otherCache :=
  ⟨rfl, rfl, fun _ _ => rfl⟩

/-- Claim C10: every badge produced by the classification has a result
code below 5 and an image path that is exactly the static SVG whose
numeric name matches the result code. -/
theorem badge_result_image_agree (res : HttpResponse) :
    (classify res).Result < 5 ∧ (classify res).Image = imageFor (classify res).Result := by
  rcases res with ⟨sc, body⟩
  simp only [classify, applySwitch]
  split_ifs <;> exact ⟨by decide, by decide⟩

end Statuspage
